import Mathlib

/-!
Verification of the PD TSO/service-discovery subsystem.

Shallow embedding of:
* `pkg/utils/etcdutil` (constants, `LoopWatcher` with its paginated
  snapshot load, watch loop, and `ForceLoad` rate limiting),
* the TSO client (`ProcessTSORequests`, async TS retrieval, the
  TSO-allocator connection lookup and `switchPrimary`),
* the PD service-discovery client (`initClusterID`, `updateMember`),
* the TSO allocator core (modelled from the specification; its code is
  not part of the sources at hand).

Durations are modelled in nanoseconds (Go `time.Duration`), wall-clock
instants as integers, machine integers as `Int`/`Nat` with explicit
wrap-around where the source truncates.
-/

namespace Etcdutil

/-- One nanosecond-denominated millisecond, as in Go `time.Millisecond`. -/
def millisecond : Nat := 1000000

/-- One nanosecond-denominated second, as in Go `time.Second`. -/
def second : Nat := 1000 * millisecond

/-- `defaultEtcdClientTimeout = 3 * time.Second`. -/
def defaultEtcdClientTimeout : Nat := 3 * second

/-- `defaultAutoSyncInterval = 60 * time.Second`. -/
def defaultAutoSyncInterval : Nat := 60 * second

/-- `DefaultDialTimeout = 30 * time.Second`. -/
def DefaultDialTimeout : Nat := 30 * second

/-- `DefaultRequestTimeout = 10 * time.Second`. -/
def DefaultRequestTimeout : Nat := 10 * second

/-- `DefaultSlowRequestTime = time.Second`. -/
def DefaultSlowRequestTime : Nat := second

/-- `defaultLoadDataFromEtcdTimeout = 30 * time.Second`. -/
def defaultLoadDataFromEtcdTimeout : Nat := 30 * second

/-- `defaultLoadFromEtcdRetryInterval = 200 * time.Millisecond`. -/
def defaultLoadFromEtcdRetryInterval : Nat := 200 * millisecond

/-- `defaultLoadFromEtcdRetryTimes = int(defaultLoadDataFromEtcdTimeout / defaultLoadFromEtcdRetryInterval)`. -/
def defaultLoadFromEtcdRetryTimes : Nat :=
  defaultLoadDataFromEtcdTimeout / defaultLoadFromEtcdRetryInterval

/-- `defaultLoadBatchSize = 400`. -/
def defaultLoadBatchSize : Nat := 400

/-- `defaultWatchChangeRetryInterval = 1 * time.Second`. -/
def defaultWatchChangeRetryInterval : Nat := 1 * second

/-- `defaultForceLoadMinimalInterval = 200 * time.Millisecond`. -/
def defaultForceLoadMinimalInterval : Nat := 200 * millisecond

/-- The `LoopWatcher` state relevant to the verified behaviour: the
`lastTimeForceLoad` instant, whether the 1-slot `forceLoadCh` currently
holds a pending signal, and the four tunable parameters set by
`NewLoopWatcher`. -/
structure LoopWatcher where
  key : Nat
  lastTimeForceLoad : Int
  forceLoadChFull : Bool
  loadTimeout : Nat
  loadRetryTimes : Nat
  loadBatchSize : Nat
  watchChangeRetryInterval : Nat
  deriving DecidableEq, Repr

/-- `NewLoopWatcher`: fields are initialized to the package defaults,
`lastTimeForceLoad` to `time.Now()` (the `now` argument), and the
buffered `forceLoadCh` starts empty. -/
def NewLoopWatcher (now : Int) (key : Nat) : LoopWatcher :=
  { key := key
    lastTimeForceLoad := now
    forceLoadChFull := false
    loadTimeout := defaultLoadDataFromEtcdTimeout
    loadRetryTimes := defaultLoadFromEtcdRetryTimes
    loadBatchSize := defaultLoadBatchSize
    watchChangeRetryInterval := defaultWatchChangeRetryInterval }

/-- `LoopWatcher.ForceLoad` at instant `now`.  The double-checked lock
collapses to a single check in this sequential embedding:
`time.Since(lastTimeForceLoad) < defaultForceLoadMinimalInterval` means
return immediately; otherwise `lastTimeForceLoad` is set to `now` and a
signal is sent on `forceLoadCh` only if the 1-slot buffer has room
(`select` with a `default` branch).  The returned boolean records
whether a signal was actually sent. -/
def ForceLoad (now : Int) (lw : LoopWatcher) : LoopWatcher × Bool :=
  if now - lw.lastTimeForceLoad < (defaultForceLoadMinimalInterval : Int) then
    (lw, false)
  else if lw.forceLoadChFull then
    ({ lw with lastTimeForceLoad := now }, false)
  else
    ({ lw with lastTimeForceLoad := now, forceLoadChFull := true }, true)

end Etcdutil

/-- C7: the default configuration constants equal the specified values —
slow-request threshold 1 s, request timeout 10 s, dial timeout 30 s,
auto-sync interval 60 s — and a `LoopWatcher` made by `NewLoopWatcher`
has `loadTimeout` 30 s, `loadRetryTimes` 150, `loadBatchSize` 400,
`watchChangeRetryInterval` 1 s, with a minimal force-load interval of
200 ms. -/
theorem etcdutil_default_constants :
    Etcdutil.DefaultSlowRequestTime = 1 * Etcdutil.second ∧
    Etcdutil.DefaultRequestTimeout = 10 * Etcdutil.second ∧
    Etcdutil.DefaultDialTimeout = 30 * Etcdutil.second ∧
    Etcdutil.defaultAutoSyncInterval = 60 * Etcdutil.second ∧
    Etcdutil.defaultForceLoadMinimalInterval = 200 * Etcdutil.millisecond ∧
    ∀ now key,
      (Etcdutil.NewLoopWatcher now key).loadTimeout = 30 * Etcdutil.second ∧
      (Etcdutil.NewLoopWatcher now key).loadRetryTimes = 150 ∧
      (Etcdutil.NewLoopWatcher now key).loadBatchSize = 400 ∧
      (Etcdutil.NewLoopWatcher now key).watchChangeRetryInterval = 1 * Etcdutil.second := by
  refine ⟨rfl, rfl, rfl, rfl, rfl, fun now key => ⟨rfl, ?_, rfl, rfl⟩⟩
  exact (by decide : Etcdutil.defaultLoadFromEtcdRetryTimes = 150)

/-- C8: a `ForceLoad` call arriving less than the minimal force-load
interval (200 ms) after `lastTimeForceLoad` returns without changing the
state and without sending a signal; an admitted call stamps
`lastTimeForceLoad`, so a second call less than 200 ms later is
rejected — at most one force load is admitted per 200 ms interval. -/
theorem forceLoad_min_interval (lw : Etcdutil.LoopWatcher) (t1 t2 : Int)
    (h2 : t2 - t1 < (Etcdutil.defaultForceLoadMinimalInterval : Int)) :
    (∀ (s : Etcdutil.LoopWatcher) (t : Int),
        t - s.lastTimeForceLoad < (Etcdutil.defaultForceLoadMinimalInterval : Int) →
        Etcdutil.ForceLoad t s = (s, false)) ∧
    ((Etcdutil.defaultForceLoadMinimalInterval : Int) ≤ t1 - lw.lastTimeForceLoad →
      (Etcdutil.ForceLoad t1 lw).1.lastTimeForceLoad = t1 ∧
      Etcdutil.ForceLoad t2 (Etcdutil.ForceLoad t1 lw).1 =
        ((Etcdutil.ForceLoad t1 lw).1, false)) := by
  have hquick : ∀ (s : Etcdutil.LoopWatcher) (t : Int),
      t - s.lastTimeForceLoad < (Etcdutil.defaultForceLoadMinimalInterval : Int) →
      Etcdutil.ForceLoad t s = (s, false) := by
    intro s t ht
    simp [Etcdutil.ForceLoad, ht]
  refine ⟨hquick, fun h1 => ?_⟩
  have hnot : ¬ t1 - lw.lastTimeForceLoad < (Etcdutil.defaultForceLoadMinimalInterval : Int) :=
    not_lt.mpr h1
  have hfst : (Etcdutil.ForceLoad t1 lw).1.lastTimeForceLoad = t1 := by
    by_cases hc : lw.forceLoadChFull <;> simp [Etcdutil.ForceLoad, hnot, hc]
  refine ⟨hfst, hquick _ _ ?_⟩
  rw [hfst]; exact h2

/-- Witness for `forceLoad_min_interval` at a concrete state and pair of
instants 200 ms and 300 ms after creation. -/
theorem forceLoad_min_interval_witness :
    ((300000000 : Int) - 200000000 < (Etcdutil.defaultForceLoadMinimalInterval : Int)) ∧
    ((Etcdutil.defaultForceLoadMinimalInterval : Int) ≤
        (200000000 : Int) - (Etcdutil.NewLoopWatcher 0 0).lastTimeForceLoad →
      (Etcdutil.ForceLoad 200000000 (Etcdutil.NewLoopWatcher 0 0)).1.lastTimeForceLoad = 200000000 ∧
      Etcdutil.ForceLoad 300000000 (Etcdutil.ForceLoad 200000000 (Etcdutil.NewLoopWatcher 0 0)).1 =
        ((Etcdutil.ForceLoad 200000000 (Etcdutil.NewLoopWatcher 0 0)).1, false)) :=
  ⟨by decide, (forceLoad_min_interval (Etcdutil.NewLoopWatcher 0 0) 200000000 300000000
      (by decide)).2⟩

namespace PdClient

/-- `globalDCLocation = "global"` from `pd_service_discovery.go`. -/
def globalDCLocation : String := "global"

/-- A TSO timestamp as carried in `tsopb` responses: physical and
logical parts plus the suffix-bit count. -/
structure Timestamp where
  physical : Int
  logical : Int
  suffixBits : Nat
  deriving DecidableEq, Repr

/-- The upstream `tsopb.TsoRequest` built by `ProcessTSORequests`:
header cluster id, `Count` (a `uint32`, hence reduced mod `2^32`), and
the DC location. -/
structure TsoRequestMsg where
  clusterId : Nat
  count : Nat
  dcLocation : String
  deriving DecidableEq, Repr

/-- The upstream `tsopb.TsoResponse` as far as `ProcessTSORequests`
reads it: the `Count` field and the timestamp. -/
structure TsoResponseMsg where
  count : Nat
  timestamp : Timestamp
  deriving DecidableEq, Repr

/-- Errors surfaced by `ProcessTSORequests`: a failed `Send`, a failed
`Recv`, or `errTSOLength` when the response count mismatches. -/
inductive TsoProcessError where
  | sendFailed
  | recvFailed
  | tsoLengthMismatch
  deriving DecidableEq, Repr

/-- Outcome of one `ProcessTSORequests` call: the requests sent on the
upstream stream (in order) and the returned
`(physical, logical, suffixBits)` or error. -/
structure TsoProcessOutcome where
  sent : List TsoRequestMsg
  result : Except TsoProcessError (Int × Int × Nat)
  deriving Repr

/-- `tsoBaseClient.ProcessTSORequests` over a batch of `numRequests`
requests.  The stream is modelled by its externally observable
behaviour: whether `Send` fails and what `Recv` yields (`none` for a
receive error).  The call builds one `TsoRequest` with
`Count = uint32(len(requests))`, sends it, receives one response,
fails with `errTSOLength` when `resp.GetCount() != uint32(count)`, and
otherwise returns the response timestamp's fields. -/
def ProcessTSORequests (clusterId : Nat) (dcLocation : String) (numRequests : Nat)
    (sendFails : Bool) (recvResult : Option TsoResponseMsg) : TsoProcessOutcome :=
  let req : TsoRequestMsg := ⟨clusterId, numRequests % 2 ^ 32, dcLocation⟩
  if sendFails then ⟨[req], .error .sendFailed⟩
  else
    match recvResult with
    | none => ⟨[req], .error .recvFailed⟩
    | some resp =>
      if resp.count ≠ numRequests % 2 ^ 32 then ⟨[req], .error .tsoLengthMismatch⟩
      else ⟨[req], .ok (resp.timestamp.physical, resp.timestamp.logical, resp.timestamp.suffixBits)⟩

/-- Result of `GetLocalTSWithinKeyspaceAsync`: whether a (non-nil)
`TSFuture` was returned, how many `dispatchRequest` attempts were made,
how long the method slept between them (ms), and the error pushed onto
the future's `done` channel, if any. -/
structure TsFutureOutcome where
  returnedFuture : Bool
  dispatchAttempts : Nat
  sleptMilliseconds : Nat
  doneErr : Option Nat
  deriving DecidableEq, Repr

/-- `client.GetLocalTSWithinKeyspaceAsync`, with the two possible
`dispatchRequest` outcomes supplied as oracles (`none` = success).  On a
first failure the method sleeps 50 ms and retries once; only when the
retry also fails is that error delivered on the future's `done`
channel.  The request future itself is returned unconditionally. -/
def GetLocalTSWithinKeyspaceAsync (dispatch1 dispatch2 : Option Nat) : TsFutureOutcome :=
  match dispatch1 with
  | none => ⟨true, 1, 0, none⟩
  | some _ =>
    match dispatch2 with
    | none => ⟨true, 2, 50, none⟩
    | some e2 => ⟨true, 2, 50, some e2⟩

/-- The `tsoBaseClient` state used by the allocator-connection lookup:
the primary URL, the `dc-location -> allocator URL` map and the
`addr -> gRPC connection` map (connections numbered abstractly). -/
structure TsoBaseState where
  primary : Option String
  tsoAllocators : String → Option String
  clientConns : String → Option Nat

/-- `tsoBaseClient.getPrimaryAddr`: the stored primary or `""`. -/
def getPrimaryAddr (s : TsoBaseState) : String := s.primary.getD ""

/-- `tsoBaseClient.GetTSOAllocatorClientConnByDCLocation`.  The two
`panic` branches are modelled as `Except.error` with the panic
message's shape. -/
def GetTSOAllocatorClientConnByDCLocation (s : TsoBaseState) (dcLocation : String) :
    Except String (Nat × String) :=
  match s.tsoAllocators dcLocation with
  | none => .error "the allocator leader should exist"
  | some url =>
    match s.clientConns url with
    | none => .error "the client connection should exist"
    | some cc => .ok (cc, url)

/-- `tsoBaseClient.GetOrCreateGRPCConn`: reuse a cached connection, or
dial (`dial` is the oracle for `grpcutil.GetClientConn`: `none` =
failure) and cache the result.  The sequential embedding collapses the
check-then-insert race handling. -/
def GetOrCreateGRPCConn (s : TsoBaseState) (addr : String) (dial : Option Nat) :
    Except Unit (Nat × TsoBaseState) :=
  match s.clientConns addr with
  | some cc => .ok (cc, s)
  | none =>
    match dial with
    | none => .error ()
    | some cc =>
      .ok (cc, { s with clientConns := fun a => if a = addr then some cc else s.clientConns a })

/-- `tsoBaseClient.switchPrimary` with `addr = addrs[0]`: no-op when the
primary is unchanged; otherwise connect (failing on dial error), then
store the primary and the global-DC allocator entry. -/
def switchPrimary (s : TsoBaseState) (addr : String) (dial : Option Nat) :
    Except Unit TsoBaseState :=
  if addr = getPrimaryAddr s then .ok s
  else
    match GetOrCreateGRPCConn s addr dial with
    | .error _ => .error ()
    | .ok (_, s1) =>
      .ok { s1 with
              primary := some addr
              tsoAllocators := fun d =>
                if d = globalDCLocation then some addr else s1.tsoAllocators d }

end PdClient

/-- C2: for a non-empty batch of `n` requests (with `n` in `uint32`
range, as `len` is truncated to `uint32`), `ProcessTSORequests` sends
exactly one upstream `TsoRequest` with `Count = n`; when a response is
received, a count different from `n` yields `errTSOLength` and a
matching count yields exactly the response timestamp's physical,
logical and suffix bits with no error. -/
theorem processTSORequests_batch_shape (clusterId : Nat) (dcLocation : String) (n : Nat)
    (sendFails : Bool) (recvResult : Option PdClient.TsoResponseMsg)
    (hpos : 0 < n) (h32 : n < 2 ^ 32) :
    (PdClient.ProcessTSORequests clusterId dcLocation n sendFails recvResult).sent =
      [⟨clusterId, n, dcLocation⟩] ∧
    (∀ resp, recvResult = some resp → sendFails = false →
      (resp.count ≠ n →
        (PdClient.ProcessTSORequests clusterId dcLocation n sendFails recvResult).result =
          .error .tsoLengthMismatch) ∧
      (resp.count = n →
        (PdClient.ProcessTSORequests clusterId dcLocation n sendFails recvResult).result =
          .ok (resp.timestamp.physical, resp.timestamp.logical, resp.timestamp.suffixBits))) := by
  have hmod : n % 2 ^ 32 = n := Nat.mod_eq_of_lt h32
  refine ⟨?_, ?_⟩
  · unfold PdClient.ProcessTSORequests
    rw [hmod]
    cases sendFails
    · cases recvResult with
      | none => rfl
      | some resp => by_cases h : resp.count = n <;> simp [h]
    · rfl
  · rintro resp rfl rfl
    unfold PdClient.ProcessTSORequests
    rw [hmod]
    refine ⟨fun hne => ?_, fun heq => ?_⟩
    · simp [hne]
    · simp [heq]

/-- A sample TSO response used by the `ProcessTSORequests` witness. -/
def sampleTsoResp : PdClient.TsoResponseMsg := ⟨3, ⟨100, 42, 2⟩⟩

/-- Witness for `processTSORequests_batch_shape` on a 3-request batch
with a matching response. -/
theorem processTSORequests_batch_shape_witness :
    (PdClient.ProcessTSORequests 7 "global" 3 false (some sampleTsoResp)).sent =
      [⟨7, 3, "global"⟩] ∧
    (PdClient.ProcessTSORequests 7 "global" 3 false (some sampleTsoResp)).result =
      .ok (100, 42, 2) := by
  have h := processTSORequests_batch_shape 7 "global" 3 false (some sampleTsoResp)
    (by decide) (by decide)
  exact ⟨h.1, (h.2 sampleTsoResp rfl rfl).2 rfl⟩

/-- C9: `GetLocalTSWithinKeyspaceAsync` always returns a (non-nil)
future; if the first `dispatchRequest` fails it sleeps 50 ms and
retries dispatch exactly once; an error reaches the future's `done`
channel exactly when both attempts fail. -/
theorem getLocalTSAsync_retry_once (dispatch1 dispatch2 : Option Nat) :
    (PdClient.GetLocalTSWithinKeyspaceAsync dispatch1 dispatch2).returnedFuture = true ∧
    ((PdClient.GetLocalTSWithinKeyspaceAsync dispatch1 dispatch2).doneErr ≠ none ↔
      dispatch1 ≠ none ∧ dispatch2 ≠ none) ∧
    (dispatch1 ≠ none →
      (PdClient.GetLocalTSWithinKeyspaceAsync dispatch1 dispatch2).dispatchAttempts = 2 ∧
      (PdClient.GetLocalTSWithinKeyspaceAsync dispatch1 dispatch2).sleptMilliseconds = 50) ∧
    (dispatch1 = none →
      (PdClient.GetLocalTSWithinKeyspaceAsync dispatch1 dispatch2).dispatchAttempts = 1) := by
  cases dispatch1 <;> cases dispatch2 <;>
    simp [PdClient.GetLocalTSWithinKeyspaceAsync]

/-- Witness for `getLocalTSAsync_retry_once` with both dispatch
attempts failing. -/
theorem getLocalTSAsync_retry_once_witness :
    (PdClient.GetLocalTSWithinKeyspaceAsync (some 3) (some 4)).doneErr ≠ none :=
  (getLocalTSAsync_retry_once (some 3) (some 4)).2.1.mpr
    ⟨by decide, by decide⟩

/-- C10: `GetTSOAllocatorClientConnByDCLocation` panics exactly when the
dcLocation has no `tsoAllocators` entry or the stored URL has no
connection in `clientConns`; after a `switchPrimary` that stored a new
primary (which also creates and stores the connection), both panic
branches are unreachable for the global DC location and the function
returns that connection and URL. -/
theorem getTSOAllocatorClientConn_total_after_switchPrimary
    (s s' : PdClient.TsoBaseState) (addr : String) (dial : Option Nat)
    (hne : addr ≠ PdClient.getPrimaryAddr s)
    (hok : PdClient.switchPrimary s addr dial = .ok s') :
    (∃ cc, s'.clientConns addr = some cc ∧
      PdClient.GetTSOAllocatorClientConnByDCLocation s' PdClient.globalDCLocation =
        .ok (cc, addr)) ∧
    (∀ (t : PdClient.TsoBaseState) (dc : String),
      (∃ e, PdClient.GetTSOAllocatorClientConnByDCLocation t dc = .error e) ↔
        (t.tsoAllocators dc = none ∨
          ∃ url, t.tsoAllocators dc = some url ∧ t.clientConns url = none)) := by
  constructor
  · unfold PdClient.switchPrimary at hok
    rw [if_neg hne] at hok
    unfold PdClient.GetOrCreateGRPCConn at hok
    rcases hconn : s.clientConns addr with _ | cc
    · rw [hconn] at hok
      rcases dial with _ | cc'
      · simp at hok
      · simp at hok
        refine ⟨cc', ?_, ?_⟩
        · rw [← hok]; simp
        · rw [← hok]
          unfold PdClient.GetTSOAllocatorClientConnByDCLocation
          simp
    · rw [hconn] at hok
      simp at hok
      refine ⟨cc, ?_, ?_⟩
      · rw [← hok]; simpa using hconn
      · rw [← hok]
        unfold PdClient.GetTSOAllocatorClientConnByDCLocation
        simp [hconn]
  · intro t dc
    unfold PdClient.GetTSOAllocatorClientConnByDCLocation
    rcases halloc : t.tsoAllocators dc with _ | url
    · simp
    · rcases hcc : t.clientConns url with _ | cc <;> simp [hcc]

/-- The initial `tsoBaseClient` state used by the C10 witness: no
primary, no allocator entries, no connections. -/
def emptyTsoBaseState : PdClient.TsoBaseState :=
  { primary := none, tsoAllocators := fun _ => none, clientConns := fun _ => none }

/-- The state after the C10 witness `switchPrimary` call stores primary
`"a"` with freshly dialed connection `7`. -/
def switchedTsoBaseState : PdClient.TsoBaseState :=
  { primary := some "a"
    tsoAllocators := fun d => if d = PdClient.globalDCLocation then some "a" else none
    clientConns := fun a => if a = "a" then some (7 : Nat) else none }

/-- Witness for `getTSOAllocatorClientConn_total_after_switchPrimary`:
after switching the primary to `"a"` with connection `7`, the lookup
for the global DC location succeeds. -/
theorem getTSOAllocatorClientConn_witness :
    PdClient.GetTSOAllocatorClientConnByDCLocation switchedTsoBaseState
      PdClient.globalDCLocation = .ok (7, "a") := by
  have h := getTSOAllocatorClientConn_total_after_switchPrimary
    emptyTsoBaseState switchedTsoBaseState "a" (some 7)
    (by simp [PdClient.getPrimaryAddr, emptyTsoBaseState])
    (by simp [PdClient.switchPrimary, PdClient.getPrimaryAddr, PdClient.GetOrCreateGRPCConn,
      emptyTsoBaseState, switchedTsoBaseState])
  obtain ⟨cc, hcc, hres⟩ := h.1
  have : cc = 7 := by
    have : switchedTsoBaseState.clientConns "a" = some 7 := by
      simp [switchedTsoBaseState]
    rw [this] at hcc
    exact (Option.some.inj hcc).symm
  rw [this] at hres
  exact hres

namespace PdClient

/-- A PD member as read by `updateMember`: only its client URLs
matter here. -/
structure MemberInfo where
  clientUrls : List String
  deriving DecidableEq, Repr

/-- A `pdpb.GetMembersResponse` as far as `updateMember` and
`initClusterID` read it: the header cluster id and the leader. -/
structure GetMembersResponse where
  clusterId : Nat
  leader : Option MemberInfo
  deriving DecidableEq, Repr

/-- The externally observable outcome of querying one URL inside
`updateMember`: the `getMembers` reply (`none` = RPC/header error), the
outcome of dialing the leader in `switchLeader` and the result of the
`switchTSOAllocatorLeaders` callbacks. -/
structure URLOutcome where
  resp : Option GetMembersResponse
  dialOK : Bool
  tsoCallbackErr : Option Nat
  deriving DecidableEq, Repr

/-- Errors produced by `updateMember`. -/
inductive UpdateMemberError where
  | getMembersFailed
  | clusterIdMismatch
  | noLeader
  | dialFailed
  | tsoCallback (e : Nat)
  | noMoreMembers
  deriving DecidableEq, Repr

/-- `pdServiceDiscovery.switchLeader` on `addrs[0]`: a no-op when the
leader is unchanged, otherwise it fails iff dialing the new leader
fails (connection bookkeeping is not needed here because `updateMember`
returns right after a successful switch). -/
def switchLeaderResult (oldLeader addr : String) (dialOK : Bool) :
    Option UpdateMemberError :=
  if addr = oldLeader then none
  else if dialOK then none
  else some .dialFailed

/-- `pdServiceDiscovery.updateMember`, iterating over the known URLs
(each paired with its oracle outcome).  Per URL: a `getMembers` failure
or a header cluster id different from the local one produces an error;
with a matching cluster id, a missing leader is an error but the TSO
allocator callbacks still run; any such error returns only when the
client context is done, and otherwise the next URL is tried.  On the
success path the leader is switched (its error returned directly) and
the callback error, if any, is the result.  An exhausted URL list gives
`ErrClientGetMember`. -/
def updateMember (localClusterId : Nat) (oldLeader : String) (ctxDone : Bool) :
    List URLOutcome → Option UpdateMemberError
  | [] => some .noMoreMembers
  | o :: rest =>
    match o.resp with
    | none =>
      if ctxDone then some .getMembersFailed
      else updateMember localClusterId oldLeader ctxDone rest
    | some r =>
      if r.clusterId ≠ localClusterId then
        if ctxDone then some .clusterIdMismatch
        else updateMember localClusterId oldLeader ctxDone rest
      else
        match r.leader with
        | none =>
          if ctxDone then some .noLeader
          else updateMember localClusterId oldLeader ctxDone rest
        | some m =>
          match m.clientUrls with
          | [] =>
            if ctxDone then some .noLeader
            else updateMember localClusterId oldLeader ctxDone rest
          | addr :: _ =>
            match switchLeaderResult oldLeader addr o.dialOK with
            | some e => some e
            | none => o.tsoCallbackErr.map .tsoCallback

/-- Errors produced by `initClusterID`. -/
inductive InitClusterIDError where
  | unmatchedClusterID
  | failInitClusterID
  deriving DecidableEq, Repr

/-- The URL loop of `pdServiceDiscovery.initClusterID`, carrying the
`clusterID` accumulator (zero meaning not yet set).  Each element of
the list is one URL's `getMembers` outcome: `none` for an RPC error,
`some none` for a reply with a nil header (both skipped), and
`some (some cid)` for a successful reply with header cluster id
`cid`. -/
def initClusterIDAux : List (Option (Option Nat)) → Nat → Except InitClusterIDError Nat
  | [], acc => if acc = 0 then .error .failInitClusterID else .ok acc
  | r :: rest, acc =>
    match r with
    | none => initClusterIDAux rest acc
    | some none => initClusterIDAux rest acc
    | some (some cid) =>
      if acc = 0 then initClusterIDAux rest cid
      else if cid ≠ acc then .error .unmatchedClusterID
      else initClusterIDAux rest acc

/-- `pdServiceDiscovery.initClusterID`: run the URL loop with an unset
(zero) accumulator; on success the accumulator becomes the stored
cluster id. -/
def initClusterID (rs : List (Option (Option Nat))) : Except InitClusterIDError Nat :=
  initClusterIDAux rs 0

/-- The amended behaviour of `initClusterID`, written from the corrected
claim: among the successful replies with non-nil headers, the first
*non-zero* cluster id is established (zero acting as the unset
sentinel); every later id must equal it or `errUnmatchedClusterID` is
returned; if no non-zero id appears, `errFailInitClusterID`. -/
def amendedInitClusterID (rs : List (Option (Option Nat))) : Except InitClusterIDError Nat :=
  match (rs.filterMap Option.join).dropWhile (· = 0) with
  | [] => .error .failInitClusterID
  | c :: t => if t.all (· = c) then .ok c else .error .unmatchedClusterID

end PdClient

/-- Helper for the corrected C4: once a non-zero cluster id `a` is
established, the rest of the URL loop succeeds with `a` iff every later
successful reply carries exactly `a`, and fails with
`errUnmatchedClusterID` otherwise. -/
theorem initClusterIDAux_nonzero (rest : List (Option (Option Nat))) (a : Nat) (ha : a ≠ 0) :
    PdClient.initClusterIDAux rest a =
      (if (rest.filterMap Option.join).all (· = a) then .ok a
       else .error .unmatchedClusterID) := by
  induction rest with
  | nil => simp [PdClient.initClusterIDAux, ha]
  | cons r rest ih =>
    match r with
    | none => simpa [PdClient.initClusterIDAux, List.filterMap_cons] using ih
    | some none => simpa [PdClient.initClusterIDAux, List.filterMap_cons] using ih
    | some (some cid) =>
      by_cases hc : cid = a
      · subst hc
        simpa [PdClient.initClusterIDAux, ha, List.filterMap_cons, Option.join] using ih
      · simp [PdClient.initClusterIDAux, ha, hc, List.filterMap_cons, Option.join]

/-- C4 corrected: `initClusterID` equals the amended specification —
zero cluster ids act as "not yet set", the first non-zero id among the
successful replies is established, all later successful replies must
match it (else `errUnmatchedClusterID`), and if no non-zero id appears
the result is `errFailInitClusterID`. -/
theorem initClusterID_eq_amended (rs : List (Option (Option Nat))) :
    PdClient.initClusterID rs = PdClient.amendedInitClusterID rs := by
  show PdClient.initClusterIDAux rs 0 = _
  induction rs with
  | nil => rfl
  | cons r rest ih =>
    match r with
    | none =>
      simpa [PdClient.initClusterIDAux, PdClient.amendedInitClusterID,
        List.filterMap_cons] using ih
    | some none =>
      simpa [PdClient.initClusterIDAux, PdClient.amendedInitClusterID,
        List.filterMap_cons] using ih
    | some (some cid) =>
      by_cases hc : cid = 0
      · subst hc
        simpa [PdClient.initClusterIDAux, PdClient.amendedInitClusterID,
          List.filterMap_cons, Option.join] using ih
      · rw [show PdClient.initClusterIDAux (some (some cid) :: rest) 0 =
            PdClient.initClusterIDAux rest cid from by simp [PdClient.initClusterIDAux]]
        rw [initClusterIDAux_nonzero rest cid hc]
        simp [PdClient.amendedInitClusterID, List.filterMap_cons, Option.join, hc]

/-- C4 counterexample: with a first successful reply carrying cluster id
`0` and a second carrying `5`, `initClusterID` neither stores the first
reply's id nor fails with `errUnmatchedClusterID`: it succeeds with
`5`. -/
theorem initClusterID_zero_first_counterexample :
    PdClient.initClusterID [some (some 0), some (some 5)] = .ok 5 ∧ (5 : Nat) ≠ 0 :=
  ⟨rfl, by decide⟩

/-- C3 corrected: inside `updateMember`, a `GetMembers` reply whose
header cluster id differs from the locally known one causes that URL to
be skipped like any other per-URL failure — the mismatch error is
returned only when the client context is already done; otherwise the
remaining URLs are tried and the update may still succeed. -/
theorem updateMember_mismatch_skips (localClusterId : Nat) (oldLeader : String)
    (o : PdClient.URLOutcome) (os : List PdClient.URLOutcome)
    (r : PdClient.GetMembersResponse)
    (hr : o.resp = some r) (hm : r.clusterId ≠ localClusterId) :
    PdClient.updateMember localClusterId oldLeader false (o :: os) =
      PdClient.updateMember localClusterId oldLeader false os ∧
    PdClient.updateMember localClusterId oldLeader true (o :: os) =
      some .clusterIdMismatch := by
  constructor <;> simp [PdClient.updateMember, hr, hm]

/-- The first queried URL in the C3 scenario: it answers with cluster
id `2` (mismatching the local id `1`). -/
def mismatchURLOutcome : PdClient.URLOutcome :=
  ⟨some ⟨2, some ⟨["u1"]⟩⟩, true, none⟩

/-- The second queried URL in the C3 scenario: it answers with the
matching cluster id `1` and a reachable leader. -/
def matchingURLOutcome : PdClient.URLOutcome :=
  ⟨some ⟨1, some ⟨["u2"]⟩⟩, true, none⟩

/-- C3 counterexample: with the context alive, a cluster-id mismatch on
the first URL is not fatal — `updateMember` succeeds (returns no error)
via the second URL. -/
theorem updateMember_mismatch_not_fatal_counterexample :
    PdClient.updateMember 1 "" false [mismatchURLOutcome, matchingURLOutcome] = none := by
  decide

/-- Witness for `updateMember_mismatch_skips` at the concrete mismatch
outcome. -/
theorem updateMember_mismatch_skips_witness :
    PdClient.updateMember 1 "" false [mismatchURLOutcome] =
      PdClient.updateMember 1 "" false [] ∧
    PdClient.updateMember 1 "" true [mismatchURLOutcome] =
      some .clusterIdMismatch :=
  updateMember_mismatch_skips 1 "" mismatchURLOutcome [] ⟨2, some ⟨["u1"]⟩⟩
    rfl (by decide)

namespace Etcdutil

/-- An etcd key-value pair (`mvccpb.KeyValue`), keys abstracted to
naturals ordered like the byte-wise key order. -/
structure KeyValue where
  key : Nat
  value : Nat
  deriving DecidableEq, Repr

/-- The etcd state a snapshot load runs against: the key-value pairs of
the watched range in ascending key order, and the store revision
reported in every response header. -/
structure EtcdSnapshot where
  kvs : List KeyValue
  headerRevision : Int
  deriving DecidableEq, Repr

/-- One `clientv3` `Get` with `WithSort(SortByKey, SortAscend)` and
`WithLimit(limit)` against the snapshot: all pairs with key at least
`startKey`, truncated to `limit` (0 meaning unlimited), together with
the `More` flag saying whether the selection was truncated. -/
def etcdGetRange (kvs : List KeyValue) (startKey : Nat) (limit : Nat) :
    List KeyValue × Bool :=
  let sel := kvs.filter (fun kv => startKey ≤ kv.key)
  if limit = 0 then (sel, false)
  else (sel.take limit, decide (limit < sel.length))

/-- The batch loop of `LoopWatcher.load`: fetch a batch; when `More` is
set, the last returned key is not delivered to `putFn` but becomes the
start key of the next batch; otherwise the batch is the final one.  The
returned list is the sequence of pairs delivered to `putFn`.  `fuel`
bounds the iteration count (the Go loop terminates because every
truncated batch advances the start key past `loadBatchSize` keys). -/
def loadLoop : Nat → List KeyValue → Nat → Nat → Option (List KeyValue)
  | 0, _, _, _ => none
  | fuel + 1, kvs, limit, startKey =>
    let res := etcdGetRange kvs startKey limit
    if res.2 then
      match res.1.getLast? with
      | none => none
      | some lastKV =>
        (loadLoop fuel kvs limit lastKV.key).map (fun rest => res.1.dropLast ++ rest)
    else some res.1

/-- `LoopWatcher.load` over a snapshot: the limit is
`loadBatchSize + 1` when a batch size is configured (0 meaning no
limit), and on completion the result is the delivered pairs paired with
`resp.Header.Revision + 1`. -/
def load (snap : EtcdSnapshot) (loadBatchSize : Nat) (startKey : Nat) :
    Option (List KeyValue × Int) :=
  let limit := if loadBatchSize = 0 then 0 else loadBatchSize + 1
  (loadLoop (snap.kvs.length + 1) snap.kvs limit startKey).map
    (fun delivered => (delivered, snap.headerRevision + 1))

end Etcdutil

/-- In a strictly key-sorted list, filtering by "key at least the key of
element `i`" is exactly dropping the first `i` elements. -/
theorem sorted_filter_ge_eq_drop (l : List Etcdutil.KeyValue)
    (hs : l.Pairwise (fun a b => a.key < b.key)) :
    ∀ (i : Nat) (h : i < l.length),
      l.filter (fun kv => (l.get ⟨i, h⟩).key ≤ kv.key) = l.drop i := by
  induction l with
  | nil => intro i h; exact absurd h (by simp)
  | cons a t ih =>
    rcases List.pairwise_cons.mp hs with ⟨hhead, ht⟩
    intro i h
    cases i with
    | zero =>
      simp only [List.get, List.drop_zero]
      rw [List.filter_cons_of_pos (by simp)]
      congr 1
      rw [List.filter_eq_self]
      intro x hx
      simpa using le_of_lt (hhead x hx)
    | succ i =>
      have hti : i < t.length := Nat.lt_of_succ_lt_succ h
      simp only [List.get, List.drop_succ_cons]
      rw [List.filter_cons_of_neg (by simpa using hhead (t.get ⟨i, hti⟩) (t.get_mem _ _))]
      exact ih ht i hti

/-- Filtering by a key bound at least as strong as `startKey` gives the
same result on the whole list and on its `startKey`-selection. -/
theorem filter_ge_restrict (kvs : List Etcdutil.KeyValue) (startKey : Nat)
    (c : Etcdutil.KeyValue) (hc : startKey ≤ c.key) :
    kvs.filter (fun kv => c.key ≤ kv.key) =
      (kvs.filter (fun kv => startKey ≤ kv.key)).filter (fun kv => c.key ≤ kv.key) := by
  rw [List.filter_filter]
  apply List.filter_congr
  intro x _
  by_cases hq : c.key ≤ x.key
  · simp [hq, le_trans hc hq]
  · simp [hq]

/-- The batch loop of `LoopWatcher.load` delivers exactly the selected
range: with strictly sorted keys, a positive batch size `B` (limit
`B + 1`) and enough fuel, `loadLoop` returns precisely the pairs with
key at least `startKey`, in order. -/
theorem loadLoop_delivers_range (kvs : List Etcdutil.KeyValue)
    (hs : kvs.Pairwise (fun a b => a.key < b.key)) (B : Nat) (hB : 1 ≤ B) :
    ∀ (fuel startKey : Nat),
      (kvs.filter (fun kv => startKey ≤ kv.key)).length < fuel →
      Etcdutil.loadLoop fuel kvs (B + 1) startKey =
        some (kvs.filter (fun kv => startKey ≤ kv.key)) := by
  intro fuel
  induction fuel with
  | zero => intro startKey h; exact absurd h (by simp)
  | succ fuel ih =>
    intro startKey hlen
    have hsel : Etcdutil.etcdGetRange kvs startKey (B + 1) =
        ((kvs.filter (fun kv => startKey ≤ kv.key)).take (B + 1),
          decide (B + 1 < (kvs.filter (fun kv => startKey ≤ kv.key)).length)) := by
      unfold Etcdutil.etcdGetRange
      rw [if_neg (Nat.succ_ne_zero B)]
    by_cases hmore : B + 1 < (kvs.filter (fun kv => startKey ≤ kv.key)).length
    · have hBsel : B < (kvs.filter (fun kv => startKey ≤ kv.key)).length :=
        Nat.lt_trans (Nat.lt_succ_self B) hmore
      have hlast : ((kvs.filter (fun kv => startKey ≤ kv.key)).take (B + 1)).getLast? =
          some ((kvs.filter (fun kv => startKey ≤ kv.key)).get ⟨B, hBsel⟩) := by
        rw [List.getLast?_eq_getElem?, List.length_take,
          Nat.min_eq_left (Nat.le_of_lt hmore), Nat.succ_sub_one,
          List.getElem?_take_of_lt (Nat.lt_succ_self B), List.getElem?_eq_getElem hBsel]
        rfl
      have hkeystep : startKey ≤ ((kvs.filter (fun kv => startKey ≤ kv.key)).get ⟨B, hBsel⟩).key := by
        have hmem : (kvs.filter (fun kv => startKey ≤ kv.key)).get ⟨B, hBsel⟩ ∈
            kvs.filter (fun kv => startKey ≤ kv.key) := List.get_mem _ _ _
        simpa using (List.mem_filter.mp hmem).2
      have hstep1 := filter_ge_restrict kvs startKey
        ((kvs.filter (fun kv => startKey ≤ kv.key)).get ⟨B, hBsel⟩) hkeystep
      have hstep2 : (kvs.filter (fun kv => startKey ≤ kv.key)).filter
            (fun kv => ((kvs.filter (fun kv => startKey ≤ kv.key)).get ⟨B, hBsel⟩).key ≤ kv.key) =
          (kvs.filter (fun kv => startKey ≤ kv.key)).drop B :=
        sorted_filter_ge_eq_drop (kvs.filter (fun kv => startKey ≤ kv.key))
          (hs.filter _) B hBsel
      have hlen' : (kvs.filter
            (fun kv => ((kvs.filter (fun kv => startKey ≤ kv.key)).get ⟨B, hBsel⟩).key ≤ kv.key)).length <
          fuel := by
        rw [hstep1, hstep2, List.length_drop]
        have h1 : (kvs.filter (fun kv => startKey ≤ kv.key)).length ≤ fuel :=
          Nat.lt_succ_iff.mp hlen
        omega
      have hrecur := ih ((kvs.filter (fun kv => startKey ≤ kv.key)).get ⟨B, hBsel⟩).key hlen'
      rw [hstep1, hstep2] at hrecur
      have hdl : ((kvs.filter (fun kv => startKey ≤ kv.key)).take (B + 1)).dropLast =
          (kvs.filter (fun kv => startKey ≤ kv.key)).take B := by
        rw [List.dropLast_eq_take, List.length_take, Nat.min_eq_left (Nat.le_of_lt hmore),
          Nat.succ_sub_one, List.take_take, Nat.min_eq_left (Nat.le_succ B)]
      unfold Etcdutil.loadLoop
      rw [hsel]
      simp only [decide_eq_true hmore, if_true, hlast, hrecur, Option.map_some', hdl]
      rw [List.take_append_drop]
    · have hle : (kvs.filter (fun kv => startKey ≤ kv.key)).length ≤ B + 1 :=
        Nat.le_of_not_lt hmore
      unfold Etcdutil.loadLoop
      rw [hsel]
      simp only [decide_eq_false hmore, if_false, Bool.false_eq_true]
      rw [List.take_of_length_le hle]

/-- C5: over a snapshot whose keys are strictly sorted and lie in the
watched range, a single `LoopWatcher.load` call delivers every
key-value pair to `putFn` exactly once and in order — pagination with
limit `loadBatchSize + 1` re-fetches the undelivered last key of each
truncated batch as the next start key — and returns the snapshot header
revision plus one. -/
theorem loopWatcher_load_exactly_once (snap : Etcdutil.EtcdSnapshot) (B startKey : Nat)
    (hs : snap.kvs.Pairwise (fun a b => a.key < b.key))
    (hrange : ∀ kv ∈ snap.kvs, startKey ≤ kv.key)
    (hB : 1 ≤ B) :
    Etcdutil.load snap B startKey = some (snap.kvs, snap.headerRevision + 1) := by
  have hself : snap.kvs.filter (fun kv => startKey ≤ kv.key) = snap.kvs := by
    rw [List.filter_eq_self]
    intro kv hkv
    simpa using hrange kv hkv
  have hfuel : (snap.kvs.filter (fun kv => startKey ≤ kv.key)).length < snap.kvs.length + 1 :=
    Nat.lt_succ_iff.mpr (by rw [hself])
  have hloop := loadLoop_delivers_range snap.kvs hs B hB (snap.kvs.length + 1) startKey hfuel
  unfold Etcdutil.load
  rw [if_neg (by omega : ¬ B = 0)]
  simp only [hloop, hself, Option.map_some']

/-- The snapshot used by the C5 witness: five pairs, batch size 2, so
the load takes three paginated batches. -/
def sampleSnapshot : Etcdutil.EtcdSnapshot :=
  ⟨[⟨1, 10⟩, ⟨2, 20⟩, ⟨3, 30⟩, ⟨4, 40⟩, ⟨5, 50⟩], 7⟩

/-- Witness for `loopWatcher_load_exactly_once` on a five-pair snapshot
paginated with batch size 2. -/
theorem loopWatcher_load_exactly_once_witness :
    (sampleSnapshot.kvs.Pairwise (fun a b => a.key < b.key) ∧
      (∀ kv ∈ sampleSnapshot.kvs, 0 ≤ kv.key) ∧ 1 ≤ 2) ∧
    Etcdutil.load sampleSnapshot 2 0 =
      some (sampleSnapshot.kvs, sampleSnapshot.headerRevision + 1) :=
  ⟨⟨by decide, by decide, by decide⟩,
    loopWatcher_load_exactly_once sampleSnapshot 2 0 (by decide) (by decide) (by decide)⟩

namespace Etcdutil

/-- A watch event: a put or a delete of a key-value pair. -/
inductive WatchEvent where
  | put (kv : KeyValue)
  | del (kv : KeyValue)
  deriving DecidableEq, Repr

/-- A watch response as `LoopWatcher.watch` reads it: the
`CompactRevision` (non-zero when the requested revision was compacted),
whether `wresp.Err()` reports a cancellation (meaningful only when
`CompactRevision` is zero), the events and the header revision. -/
structure WatchResponse where
  compactRevision : Int
  canceled : Bool
  events : List WatchEvent
  headerRevision : Int
  deriving DecidableEq, Repr

/-- One outcome of the `select` inside `LoopWatcher.watch`: the context
is done, a force-load signal arrives (carrying the revision that
`lw.load` returns, zero when the load fails), or a watch response is
received. -/
inductive WatchSelect where
  | ctxDone
  | forceLoad (loadRevision : Int)
  | response (w : WatchResponse)
  deriving DecidableEq, Repr

/-- `LoopWatcher.watch` over a trace of select outcomes.  Returns the
`(nextRevision, err)` pair of the Go function plus the list of events
delivered to `putFn`/`deleteFn`.  A force-load resumes with the load's
revision; a response with non-zero `CompactRevision` resumes from that
compact revision without returning; a canceled response returns the
current revision with the error; a normal response delivers its events
and continues from `Header.Revision + 1`.  An exhausted trace stands
for context cancellation (`return revision, nil`). -/
def watch : Int → List WatchSelect → Int × Option Unit × List WatchEvent
  | revision, [] => (revision, none, [])
  | revision, .ctxDone :: _ => (revision, none, [])
  | _, .forceLoad r :: rest => watch r rest
  | revision, .response w :: rest =>
    if w.compactRevision ≠ 0 then watch w.compactRevision rest
    else if w.canceled then (revision, some (), [])
    else
      ((watch (w.headerRevision + 1) rest).1,
        (watch (w.headerRevision + 1) rest).2.1,
        w.events ++ (watch (w.headerRevision + 1) rest).2.2)

/-- One turn of the retry loop in `StartWatchLoop`: run `watch` from
`revision`; when it reports an error, the next watch starts from the
returned revision after sleeping `watchChangeRetryInterval`
(nanoseconds recorded in the second component). -/
def startWatchLoopStep (revision : Int) (outcomes : List WatchSelect) :
    Int × Option Nat :=
  match watch revision outcomes with
  | (nextRevision, some _, _) => (nextRevision, some defaultWatchChangeRetryInterval)
  | (nextRevision, none, _) => (nextRevision, none)

end Etcdutil

/-- C6: a watch response with non-zero `CompactRevision` never makes
`watch` return an error — the watch resumes from the compact revision;
a response carrying a cancellation error with zero `CompactRevision`
makes `watch` return that error together with the current revision, and
`StartWatchLoop` then retries from the returned revision after
`watchChangeRetryInterval` (1 s). -/
theorem watch_compaction_and_cancel (revision : Int) (w : Etcdutil.WatchResponse)
    (rest : List Etcdutil.WatchSelect) :
    (w.compactRevision ≠ 0 →
      Etcdutil.watch revision (.response w :: rest) =
        Etcdutil.watch w.compactRevision rest) ∧
    (w.compactRevision = 0 → w.canceled = true →
      Etcdutil.watch revision (.response w :: rest) = (revision, some (), [])) ∧
    (∀ (rev : Int) (outcomes : List Etcdutil.WatchSelect),
      (Etcdutil.watch rev outcomes).2.1 = some () →
      Etcdutil.startWatchLoopStep rev outcomes =
        ((Etcdutil.watch rev outcomes).1, some Etcdutil.defaultWatchChangeRetryInterval)) := by
  refine ⟨fun hc => ?_, fun hc hcanc => ?_, fun rev outcomes herr => ?_⟩
  · simp [Etcdutil.watch, hc]
  · simp [Etcdutil.watch, hc, hcanc]
  · unfold Etcdutil.startWatchLoopStep
    rcases hw : Etcdutil.watch rev outcomes with ⟨nrev, e, ds⟩
    rw [hw] at herr
    simp at herr
    rw [herr]

/-- Witness for `watch_compaction_and_cancel`: a compacted response
(compact revision 11) followed by a canceled response. -/
theorem watch_compaction_and_cancel_witness :
    ((5 : Int) ≠ 0 →
      Etcdutil.watch 3 (.response ⟨5, false, [], 0⟩ ::
          [.response ⟨0, true, [], 0⟩]) =
        Etcdutil.watch 5 [.response ⟨0, true, [], 0⟩]) ∧
    ((0 : Int) = 0 → true = true →
      Etcdutil.watch 5 (.response ⟨0, true, [], 0⟩ :: []) = (5, some (), [])) :=
  ⟨(watch_compaction_and_cancel 3 ⟨5, false, [], 0⟩
      [.response ⟨0, true, [], 0⟩]).1,
    (watch_compaction_and_cancel 5 ⟨0, true, [], 0⟩ []).2.1⟩

namespace Tso

/-- Modelled from the spec: a hybrid timestamp (the TSO allocator core
and `tsoutil` are not among the sources at hand) — physical wall-clock
milliseconds plus a logical counter.  All allocators of a deployment
share one `suffixBits` value, so comparisons reduce to the lexicographic
order on `(physical, logical)`. -/
structure TS where
  physical : Int
  logical : Int
  deriving DecidableEq, Repr

/-- Modelled from the spec: the strict timestamp order — lexicographic
over `(physical, logical)` for a shared suffix-bit count (`Compare`,
and the strict part of `tsoutil.TSLessEqual` used by the proxy test). -/
def tsLess (a b : TS) : Prop :=
  a.physical < b.physical ∨ (a.physical = b.physical ∧ a.logical < b.logical)

instance (a b : TS) : Decidable (tsLess a b) := by
  unfold tsLess; infer_instance

/-- Modelled from the spec: `tsoutil.AddLogical` — adding `delta` to a
timestamp advances the logical part by `delta << suffixBits`. -/
def AddLogical (logical delta : Int) (suffixBits : Nat) : Int :=
  logical + delta * 2 ^ suffixBits

/-- Modelled from the spec: `maxLogical = 1 << 18`, the logical-counter
capacity. -/
def maxLogical : Int := 2 ^ 18

/-- Modelled from the spec: `SaveInterval` (default 3 s, in
milliseconds), the lookahead with which `lastSavedPhysical` is written
to the metadata store. -/
def saveInterval : Int := 3000

/-- Modelled from the spec: the allocator state — `currentPhysical`,
`currentLogical` and the persisted high-water mark
`lastSavedPhysical`.  The allocator only issues timestamps while
`currentPhysical < lastSavedPhysical` (the spec invariant backed by the
`Unsynced` fail-stop check with a safety margin of at least one
millisecond). -/
structure AllocatorState where
  currentPhysical : Int
  currentLogical : Int
  lastSavedPhysical : Int
  deriving DecidableEq, Repr

/-- Modelled from the spec: `GetTS(n)` for `n ≥ 1`.  The batch advances
the logical counter by `n << suffixBits` (one logical id per request,
in suffix units).  If the counter would overflow `maxLogical`, the
allocator bumps `currentPhysical` by 1 ms and restarts the counter
(the bounded in-mutex waits change timing only).  The call succeeds
only while the new physical stays below `lastSavedPhysical`
(`Unsynced` fail-stop otherwise), returning the timestamp of the last
id in the batch and the advanced state. -/
def getTS (suffixBits : Nat) (n : Nat) (s : AllocatorState) : Option (TS × AllocatorState) :=
  if n = 0 then none
  else
    let step : Int := (n : Int) * 2 ^ suffixBits
    let p : Int :=
      if maxLogical ≤ s.currentLogical + step then s.currentPhysical + 1 else s.currentPhysical
    let l : Int :=
      if maxLogical ≤ s.currentLogical + step then step else s.currentLogical + step
    if p < s.lastSavedPhysical then some (⟨p, l⟩, ⟨p, l, s.lastSavedPhysical⟩)
    else none

/-- Modelled from the spec: a primary handover at wall-clock `now`.
The new primary reads `lastSavedPhysical` from the metadata store and
syncs: `currentPhysical` becomes `max(lastSavedPhysical, now)` (never
below the persisted high-water mark, which strictly exceeds every
previously issued physical), the logical counter restarts, and the new
high-water mark is written with the `SaveInterval` lookahead. -/
def handover (now : Int) (s : AllocatorState) : AllocatorState :=
  { currentPhysical := max s.lastSavedPhysical now
    currentLogical := 0
    lastSavedPhysical := max s.lastSavedPhysical now + saveInterval }

/-- The first timestamp of a batch of `n`, computed exactly as the
proxy test does: `AddLogical(returned.logical, -n+1, suffixBits)`
paired with the returned physical. -/
def firstInBatch (suffixBits : Nat) (n : Nat) (ts : TS) : TS :=
  ⟨ts.physical, AddLogical ts.logical (-(n : Int) + 1) suffixBits⟩

/-- One step of a client-visible TSO history: a `GetTS(n)` request or a
primary handover observed at instant `now`. -/
inductive TsoOp where
  | getTS (n : Nat)
  | handover (now : Int)
  deriving DecidableEq, Repr

/-- The in-memory position of the allocator as a timestamp. -/
def stateTS (s : AllocatorState) : TS := ⟨s.currentPhysical, s.currentLogical⟩

/-- Run a history of operations, collecting the successful responses as
`(count, returned timestamp)` pairs in real-time order. -/
def runOps (suffixBits : Nat) : AllocatorState → List TsoOp → List (Nat × TS)
  | _, [] => []
  | s, .getTS n :: rest =>
    match getTS suffixBits n s with
    | none => runOps suffixBits s rest
    | some (ts, s1) => (n, ts) :: runOps suffixBits s1 rest
  | s, .handover now :: rest => runOps suffixBits (handover now s) rest

end Tso

/-- `tsLess` is transitive. -/
theorem tsLess_trans {a b c : Tso.TS} (h1 : Tso.tsLess a b) (h2 : Tso.tsLess b c) :
    Tso.tsLess a c := by
  unfold Tso.tsLess at h1 h2 ⊢
  rcases h1 with h1 | ⟨he1, hl1⟩ <;> rcases h2 with h2 | ⟨he2, hl2⟩
  · exact Or.inl (lt_trans h1 h2)
  · exact Or.inl (by omega)
  · exact Or.inl (by omega)
  · exact Or.inr ⟨he1.trans he2, lt_trans hl1 hl2⟩

instance : IsTrans Tso.TS Tso.tsLess := ⟨fun _ _ _ => tsLess_trans⟩

/-- A chain stays a chain under a strictly smaller head. -/
theorem tsChain_of_lt_head {a b : Tso.TS} {l : List Tso.TS} (hab : Tso.tsLess a b)
    (h : List.Chain Tso.tsLess b l) : List.Chain Tso.tsLess a l := by
  cases h with
  | nil => exact List.Chain.nil
  | cons hbc hchain => exact List.Chain.cons (tsLess_trans hab hbc) hchain

/-- A chain stays a chain under a head that is at most the old head
(same physical, logical not larger). -/
theorem tsChain_of_le_head {a b : Tso.TS} {l : List Tso.TS}
    (hph : a.physical = b.physical) (hlog : a.logical ≤ b.logical)
    (h : List.Chain Tso.tsLess b l) : List.Chain Tso.tsLess a l := by
  cases h with
  | nil => exact List.Chain.nil
  | cons hbc hchain =>
    refine List.Chain.cons ?_ hchain
    rcases hbc with hlt | ⟨heq, hl⟩
    · exact Or.inl (hph ▸ hlt)
    · exact Or.inr ⟨hph.trans heq, lt_of_le_of_lt hlog hl⟩

/-- What a successful `getTS` guarantees: a positive count, the state
advanced to the returned timestamp under an unchanged high-water mark,
the returned physical below the high-water mark, a first-in-batch
strictly above the previous allocator position, and a first-in-batch
not above the returned timestamp. -/
theorem getTS_spec (sb n : Nat) (s : Tso.AllocatorState) (ts : Tso.TS)
    (s1 : Tso.AllocatorState) (hg : Tso.getTS sb n s = some (ts, s1)) :
    1 ≤ n ∧
    s1.currentPhysical = ts.physical ∧ s1.currentLogical = ts.logical ∧
    s1.lastSavedPhysical = s.lastSavedPhysical ∧
    ts.physical < s.lastSavedPhysical ∧
    Tso.tsLess (Tso.stateTS s) (Tso.firstInBatch sb n ts) ∧
    (Tso.firstInBatch sb n ts).physical = ts.physical ∧
    (Tso.firstInBatch sb n ts).logical ≤ ts.logical := by
  have hpow : (0 : Int) < 2 ^ sb := by positivity
  unfold Tso.getTS at hg
  by_cases hn : n = 0
  · rw [if_pos hn] at hg; exact absurd hg (by simp)
  rw [if_neg hn] at hg
  have hn1 : 1 ≤ n := Nat.one_le_iff_ne_zero.mpr hn
  have hstep : (1 : Int) * 2 ^ sb ≤ (n : Int) * 2 ^ sb := by
    apply mul_le_mul_of_nonneg_right _ (le_of_lt hpow)
    exact_mod_cast hn1
  simp only at hg
  by_cases hov : Tso.maxLogical ≤ s.currentLogical + (n : Int) * 2 ^ sb
  · rw [if_pos hov, if_pos hov] at hg
    by_cases hguard : s.currentPhysical + 1 < s.lastSavedPhysical
    · rw [if_pos hguard] at hg
      simp only [Option.some.injEq, Prod.mk.injEq] at hg
      obtain ⟨hts, hs1⟩ := hg
      subst hts
      subst hs1
      refine ⟨hn1, rfl, rfl, rfl, hguard, ?_, rfl, ?_⟩
      · exact Or.inl (by simp [Tso.stateTS, Tso.firstInBatch])
      · simp only [Tso.firstInBatch, Tso.AddLogical]
        nlinarith
    · rw [if_neg hguard] at hg; exact absurd hg (by simp)
  · rw [if_neg hov, if_neg hov] at hg
    by_cases hguard : s.currentPhysical < s.lastSavedPhysical
    · rw [if_pos hguard] at hg
      simp only [Option.some.injEq, Prod.mk.injEq] at hg
      obtain ⟨hts, hs1⟩ := hg
      subst hts
      subst hs1
      refine ⟨hn1, rfl, rfl, rfl, hguard, ?_, rfl, ?_⟩
      · refine Or.inr ⟨rfl, ?_⟩
        simp only [Tso.stateTS, Tso.firstInBatch, Tso.AddLogical]
        nlinarith
      · simp only [Tso.firstInBatch, Tso.AddLogical]
        nlinarith
    · rw [if_neg hguard] at hg; exact absurd hg (by simp)

/-- The allocator position strictly dominates the history: starting
from any state whose physical is below the persisted high-water mark,
the first-in-batch timestamps of the successful responses form a
`tsLess`-chain rooted at the starting position. -/
theorem runOps_chain (sb : Nat) (ops : List Tso.TsoOp) :
    ∀ (s : Tso.AllocatorState), s.currentPhysical < s.lastSavedPhysical →
      List.Chain Tso.tsLess (Tso.stateTS s)
        ((Tso.runOps sb s ops).map (fun r => Tso.firstInBatch sb r.1 r.2)) := by
  induction ops with
  | nil => intro s _; exact List.Chain.nil
  | cons op rest ih =>
    intro s hinv
    match op with
    | .handover now =>
      have hrun : Tso.runOps sb s (.handover now :: rest) =
          Tso.runOps sb (Tso.handover now s) rest := by
        simp only [Tso.runOps]
      rw [hrun]
      have hinv' : (Tso.handover now s).currentPhysical <
          (Tso.handover now s).lastSavedPhysical := by
        simp only [Tso.handover, Tso.saveInterval]
        omega
      have hlt : Tso.tsLess (Tso.stateTS s) (Tso.stateTS (Tso.handover now s)) :=
        Or.inl (lt_of_lt_of_le hinv (le_max_left _ _))
      exact tsChain_of_lt_head hlt (ih (Tso.handover now s) hinv')
    | .getTS n =>
      rcases hg : Tso.getTS sb n s with _ | ⟨ts, s1⟩
      · have hrun : Tso.runOps sb s (.getTS n :: rest) = Tso.runOps sb s rest := by
          simp only [Tso.runOps, hg]
        rw [hrun]
        exact ih s hinv
      · have hrun : Tso.runOps sb s (.getTS n :: rest) =
            (n, ts) :: Tso.runOps sb s1 rest := by
          simp only [Tso.runOps, hg]
        rw [hrun]
        obtain ⟨_, hph, hlog, hsaved, hguard, hfirst, hfph, hflog⟩ :=
          getTS_spec sb n s ts s1 hg
        have hinv1 : s1.currentPhysical < s1.lastSavedPhysical := by
          rw [hph, hsaved]; exact hguard
        have hchain := ih s1 hinv1
        have hstate1 : Tso.stateTS s1 = ts := by
          simp [Tso.stateTS, hph, hlog]
        rw [hstate1] at hchain
        simp only [List.map_cons]
        exact List.Chain.cons hfirst
          (tsChain_of_le_head (hfph.trans rfl) hflog hchain)

/-- C1 (modelled from the spec): over any history of successful
`GetTS` requests interleaved with arbitrary primary handovers, the
first-in-batch timestamps — `AddLogical(returned.logical, -n+1,
suffixBits)` with the returned physical — are pairwise strictly
increasing in real-time order under the timestamp order. -/
theorem tso_firstInBatch_strictly_increasing (sb : Nat) (s0 : Tso.AllocatorState)
    (ops : List Tso.TsoOp) (hinv : s0.currentPhysical < s0.lastSavedPhysical) :
    ((Tso.runOps sb s0 ops).map (fun r => Tso.firstInBatch sb r.1 r.2)).Pairwise
      Tso.tsLess := by
  have hchain := runOps_chain sb ops s0 hinv
  exact (List.pairwise_cons.mp (List.chain_iff_pairwise.mp hchain)).2

/-- Witness for `tso_firstInBatch_strictly_increasing`: a batch of 1, a
batch of 2, a primary handover, then a batch of 3, with suffix bits 2. -/
theorem tso_firstInBatch_strictly_increasing_witness :
    ((0 : Int) < 1000) ∧
    ((Tso.runOps 2 ⟨0, 0, 1000⟩
        [.getTS 1, .getTS 2, .handover 5, .getTS 3]).map
      (fun r => Tso.firstInBatch 2 r.1 r.2)).Pairwise Tso.tsLess :=
  ⟨by decide,
    tso_firstInBatch_strictly_increasing 2 ⟨0, 0, 1000⟩
      [.getTS 1, .getTS 2, .handover 5, .getTS 3] (by decide)⟩
